import Mathlib

/-!
# Shallow embedding of the fluentbae memory / emotion engine

This file embeds the scoring, importance, mood-aggregation and trend logic of
`src/lib/memory.ts`, `src/lib/emotion-tracking.ts` and `src/lib/gemini.ts`.

Modelling conventions:
* JS strings are modelled as `List Char` (`Str`); `String.prototype.toLowerCase`
  becomes `lowerStr`, `String.prototype.includes` becomes `includesSub`, and
  `split(' ')` becomes `jsSplitSpace` (splitting on the single space character,
  keeping empty pieces, exactly like the JS method with a one-character
  separator).
* JS numbers are modelled as `ℚ`, except where the source applies `Math.exp` or
  `Math.sqrt`, which are modelled with `Real.exp` / `Real.sqrt` over `ℝ`.
* `Date` values are modelled as rational millisecond timestamps; `Date.now()`
  becomes an explicit `now` parameter.
* The Redis-backed memory list is modelled as an explicit `List Memory`
  argument (the store is an external collaborator in the spec).
* `Array.prototype.sort` with the comparator `(a, b) => b.score - a.score` is
  modelled as a stable insertion sort descending on the score key, matching the
  ECMAScript requirement that `sort` is stable and hence fully determined by
  the key order and the original element order.
-/

abbrev Str := List Char

def str (s : String) : Str := s.data

/-- JS `toLowerCase` (modelled characterwise). -/
def lowerStr (s : Str) : Str := s.map Char.toLower

/-- `leadEq pat s` holds when `pat` occurs at the very start of `s`. -/
def leadEq : Str → Str → Bool
  | [], _ => true
  | _ :: _, [] => false
  | c :: cs, d :: ds => c == d && leadEq cs ds

/-- JS `s.includes(pat)`: substring occurrence test. -/
def includesSub : Str → Str → Bool
  | [], pat => leadEq pat []
  | c :: t, pat => leadEq pat (c :: t) || includesSub t pat

/-- Splitting helper: accumulates the current piece in reverse. -/
def splitByAux (p : Char → Bool) : Str → Str → List Str
  | [], acc => [acc.reverse]
  | c :: cs, acc =>
    if p c then acc.reverse :: splitByAux p cs [] else splitByAux p cs (c :: acc)

/-- Split a string at every character satisfying `p`, keeping empty pieces. -/
def splitBy (p : Char → Bool) (s : Str) : List Str := splitByAux p s []

/-- JS `s.split(' ')`: split on the single space character; empty pieces are
kept and the result is never the empty list (`"".split(' ')` is `[""]`). -/
def jsSplitSpace (s : Str) : List Str := splitBy (· == ' ') s

/-- The 16 emotion labels of `src/types/index.ts`. -/
inductive EmotionType where
  | joy | love | excitement | contentment | gratitude
  | sadness | anger | fear | anxiety | loneliness
  | frustration | disappointment | neutral | curious
  | surprised | confused
  deriving DecidableEq

/-- The 16 labels in the insertion order of the `weightedEmotions` /
`emotionCounts` object literals of `emotion-tracking.ts` (the order
`Object.entries` iterates them in). -/
def emotionLabels : List EmotionType :=
  [.joy, .love, .excitement, .contentment, .gratitude,
   .sadness, .anger, .fear, .anxiety, .loneliness,
   .frustration, .disappointment, .neutral, .curious,
   .surprised, .confused]

/-- The 8 memory types of `src/types/index.ts`. -/
inductive MemoryType where
  | conversation | preference | event | gift
  | achievement | concern | dream | memory
  deriving DecidableEq

/-- `Emotion` of `src/types/index.ts` (intensity is a JS number in [0,1]). -/
structure Emotion where
  primary : EmotionType
  intensity : ℚ
  secondary : Option EmotionType := none
  context : Option Str := none
  deriving DecidableEq

/-- `Memory` of `src/types/index.ts`; `createdAt` / `lastAccessedAt` are
millisecond timestamps. The unused `embedding` field is omitted. -/
structure Memory where
  id : Str
  userId : Str
  content : Str
  type : MemoryType
  importance : ℚ
  emotion : Emotion
  tags : List Str
  createdAt : ℚ
  lastAccessedAt : ℚ
  deriving DecidableEq

/-! ## Importance heuristic (`MemoryManager.calculateImportance`,
`src/lib/memory.ts` lines 38–76) -/

/-- The 17-entry keyword list of `calculateImportance`. -/
def importantKeywords17 : List Str :=
  [str "love", str "hate", str "important", str "special", str "remember",
   str "never forget", str "birthday", str "anniversary", str "promotion",
   str "achievement", str "goal", str "dream", str "wish", str "fear",
   str "worry", str "excited", str "proud"]

/-- `Math.min(1, Math.max(0, x))`. -/
def clamp01 (x : ℚ) : ℚ := min 1 (max 0 x)

/-- `MemoryManager.calculateImportance` (`src/lib/memory.ts` 38–76); the
`emotion` parameter is optional in the source, hence `Option Emotion`. -/
def calculateImportance (content : Str) (emotion : Option Emotion) : ℚ :=
  let importance : ℚ := 0.5
  let importance :=
    match emotion with
    | some e =>
      let importance := importance + e.intensity * 0.3
      let importance :=
        if e.primary ∈ [EmotionType.love, EmotionType.joy,
            EmotionType.excitement, EmotionType.gratitude] then
          importance + 0.2
        else importance
      if e.primary ∈ [EmotionType.sadness, EmotionType.anger,
          EmotionType.fear, EmotionType.anxiety] then
        importance + 0.15
      else importance
    | none => importance
  let contentLower := lowerStr content
  let keywordMatches :=
    (importantKeywords17.filter (fun k => includesSub contentLower k)).length
  let importance := importance + (keywordMatches : ℚ) * 0.1
  let importance := if 100 < content.length then importance + 0.1 else importance
  let importance := if 200 < content.length then importance + 0.1 else importance
  let importance :=
    if includesSub content (str "?") then importance + 0.05 else importance
  min 1 (max 0 importance)

/-- `LangChainMemoryManager.calculateImportance`
(`src/lib/emotion-tracking.ts` 648–680): identical computation, with a
non-optional emotion parameter. -/
def calculateImportanceLC (message : Str) (e : Emotion) : ℚ :=
  let importance : ℚ := 0.5
  let importance := importance + e.intensity * 0.3
  let importance :=
    if e.primary ∈ [EmotionType.love, EmotionType.joy,
        EmotionType.excitement, EmotionType.gratitude] then
      importance + 0.2
    else importance
  let importance :=
    if e.primary ∈ [EmotionType.sadness, EmotionType.anger,
        EmotionType.fear, EmotionType.anxiety] then
      importance + 0.15
    else importance
  let contentLower := lowerStr message
  let keywordMatches :=
    (importantKeywords17.filter (fun k => includesSub contentLower k)).length
  let importance := importance + (keywordMatches : ℚ) * 0.1
  let importance := if 100 < message.length then importance + 0.1 else importance
  let importance := if 200 < message.length then importance + 0.1 else importance
  let importance :=
    if includesSub message (str "?") then importance + 0.05 else importance
  min 1 (max 0 importance)

/-- The importance formula as the specification states it: base 0.5 plus the
individual bonuses, clamped to `[0,1]` at the end. -/
def specImportance (content : Str) (e : Emotion) : ℚ :=
  clamp01 (0.5 + e.intensity * 0.3
    + (if e.primary ∈ [EmotionType.love, EmotionType.joy,
          EmotionType.excitement, EmotionType.gratitude] then 0.2 else 0)
    + (if e.primary ∈ [EmotionType.sadness, EmotionType.anger,
          EmotionType.fear, EmotionType.anxiety] then 0.15 else 0)
    + 0.1 * ((importantKeywords17.filter
        (fun k => includesSub (lowerStr content) k)).length : ℚ)
    + (if 100 < content.length then 0.1 else 0)
    + (if 200 < content.length then 0.1 else 0)
    + (if includesSub content (str "?") then 0.05 else 0))

lemma calcImportance_eq (content : Str) (e : Emotion) :
    calculateImportance content (some e) = specImportance content e := by
  unfold calculateImportance specImportance clamp01
  by_cases h1 : e.primary ∈ [EmotionType.love, EmotionType.joy,
      EmotionType.excitement, EmotionType.gratitude] <;>
  by_cases h2 : e.primary ∈ [EmotionType.sadness, EmotionType.anger,
      EmotionType.fear, EmotionType.anxiety] <;>
  by_cases h3 : 100 < content.length <;>
  by_cases h4 : 200 < content.length <;>
  by_cases h5 : includesSub content (str "?") = true <;>
  simp only [h1, h2, h3, h4, h5, if_true, if_false, ite_true, ite_false,
    eq_self_iff_true, not_true, not_false_iff, Bool.false_eq_true] <;>
  ring_nf

lemma calcImportanceLC_eq (message : Str) (e : Emotion) :
    calculateImportanceLC message e = specImportance message e := by
  unfold calculateImportanceLC specImportance clamp01
  by_cases h1 : e.primary ∈ [EmotionType.love, EmotionType.joy,
      EmotionType.excitement, EmotionType.gratitude] <;>
  by_cases h2 : e.primary ∈ [EmotionType.sadness, EmotionType.anger,
      EmotionType.fear, EmotionType.anxiety] <;>
  by_cases h3 : 100 < message.length <;>
  by_cases h4 : 200 < message.length <;>
  by_cases h5 : includesSub message (str "?") = true <;>
  simp only [h1, h2, h3, h4, h5, if_true, if_false, ite_true, ite_false,
    eq_self_iff_true, not_true, not_false_iff, Bool.false_eq_true] <;>
  ring_nf

lemma clamp01_bounds (x : ℚ) : 0 ≤ clamp01 x ∧ clamp01 x ≤ 1 := by
  unfold clamp01
  constructor
  · exact le_min (by norm_num) (le_max_left 0 x)
  · exact min_le_left 1 _

lemma half_le_clamp01 {x : ℚ} (h : 1 / 2 ≤ x) : 1 / 2 ≤ clamp01 x := by
  unfold clamp01
  have h0 : max 0 x = x := max_eq_right (le_trans (by norm_num) h)
  rw [h0]
  exact le_min (by norm_num) h

lemma half_le_specImportance (content : Str) (e : Emotion)
    (h : 0 ≤ e.intensity) : 1 / 2 ≤ specImportance content e := by
  unfold specImportance
  apply half_le_clamp01
  have hk : (0 : ℚ) ≤ ((importantKeywords17.filter
      (fun k => includesSub (lowerStr content) k)).length : ℚ) :=
    Nat.cast_nonneg _
  have hi : (0 : ℚ) ≤ e.intensity * 0.3 := mul_nonneg h (by norm_num)
  have b1 : (0 : ℚ) ≤ (if e.primary ∈ [EmotionType.love, EmotionType.joy,
      EmotionType.excitement, EmotionType.gratitude] then 0.2 else 0) := by
    split_ifs <;> norm_num
  have b2 : (0 : ℚ) ≤ (if e.primary ∈ [EmotionType.sadness, EmotionType.anger,
      EmotionType.fear, EmotionType.anxiety] then 0.15 else 0) := by
    split_ifs <;> norm_num
  have b3 : (0 : ℚ) ≤ (if 100 < content.length then (0.1 : ℚ) else 0) := by
    split_ifs <;> norm_num
  have b4 : (0 : ℚ) ≤ (if 200 < content.length then (0.1 : ℚ) else 0) := by
    split_ifs <;> norm_num
  have b5 : (0 : ℚ) ≤ (if includesSub content (str "?") then (0.05 : ℚ) else 0) := by
    split_ifs <;> norm_num
  linarith

/-- C6: `calculateImportance` computes exactly the clamped sum of bonuses the
specification describes, and the result always lies in `[0,1]`. -/
theorem importance_formula_and_bounds (content : Str) (e : Emotion) :
    calculateImportance content (some e) = specImportance content e ∧
    0 ≤ calculateImportance content (some e) ∧
    calculateImportance content (some e) ≤ 1 := by
  refine ⟨calcImportance_eq content e, ?_, ?_⟩
  · rw [calcImportance_eq]; exact (clamp01_bounds _).1
  · rw [calcImportance_eq]; exact (clamp01_bounds _).2

/-- C9: with a non-negative emotion intensity, every adjustment to the base
value 0.5 is non-negative, so both copies of the importance computation return
at least 0.5. -/
theorem importance_at_least_half (content : Str) (e : Emotion)
    (h : 0 ≤ e.intensity) :
    1 / 2 ≤ calculateImportance content (some e) ∧
    1 / 2 ≤ calculateImportanceLC content e := by
  constructor
  · rw [calcImportance_eq]; exact half_le_specImportance content e h
  · rw [calcImportanceLC_eq]; exact half_le_specImportance content e h

/-- Witness for C9 at a concrete input. -/
theorem importance_at_least_half_witness :
    1 / 2 ≤ calculateImportance (str "hello there") (some { primary := .neutral, intensity := 1/2 }) ∧
    1 / 2 ≤ calculateImportanceLC (str "hello there") { primary := .neutral, intensity := 1/2 } :=
  importance_at_least_half (str "hello there") { primary := .neutral, intensity := 1/2 } (by norm_num)

/-- Witness for C6 (the theorem has no genuine hypothesis; this instantiates
it at a concrete input anyway). -/
theorem importance_formula_and_bounds_witness :
    calculateImportance (str "I love my dream goal?") (some { primary := .love, intensity := 9/10 })
      = specImportance (str "I love my dream goal?") { primary := .love, intensity := 9/10 } ∧
    0 ≤ calculateImportance (str "I love my dream goal?") (some { primary := .love, intensity := 9/10 }) ∧
    calculateImportance (str "I love my dream goal?") (some { primary := .love, intensity := 9/10 }) ≤ 1 :=
  importance_formula_and_bounds (str "I love my dream goal?") { primary := .love, intensity := 9/10 }

/-! ## Memory-admission heuristic (`MemoryManager.shouldCreateMemory`,
`src/lib/memory.ts` 206–231; the identical
`LangChainMemoryManager.shouldCreateMemory` is at
`src/lib/emotion-tracking.ts` 613–631) -/

/-- The 12-entry keyword list of `shouldCreateMemory`. -/
def importantKeywords12 : List Str :=
  [str "remember", str "important", str "special", str "love", str "hate",
   str "never", str "always", str "dream", str "goal", str "wish",
   str "fear", str "worry"]

/-- `MemoryManager.shouldCreateMemory` (`src/lib/memory.ts` 206–231). -/
def shouldCreateMemory (message : Str) (emotion : Emotion) : Bool :=
  if message.length < 10 then false
  else if 0.7 < emotion.intensity then true
  else if importantKeywords12.any (fun k => includesSub (lowerStr message) k) then true
  else if includesSub message (str "?") then true
  else if 50 < message.length then true
  else false

/-- C7: `shouldCreateMemory` is true exactly when the text has at least 10
characters and one of the four triggers holds (high intensity, keyword,
question mark, length over 50); in particular texts shorter than 10
characters are never remembered. -/
theorem shouldCreateMemory_iff (message : Str) (emotion : Emotion) :
    (shouldCreateMemory message emotion = true ↔
      10 ≤ message.length ∧
        (0.7 < emotion.intensity ∨
         (∃ k ∈ importantKeywords12, includesSub (lowerStr message) k = true) ∨
         includesSub message (str "?") = true ∨
         50 < message.length)) ∧
    (message.length < 10 → shouldCreateMemory message emotion = false) := by
  constructor
  · unfold shouldCreateMemory
    split_ifs with h1 h2 h3 h4 h5
    · simp only [Bool.false_eq_true, false_iff]
      rintro ⟨hlen, -⟩
      omega
    · exact ⟨fun _ => ⟨by omega, Or.inl h2⟩, fun _ => rfl⟩
    · rw [List.any_eq_true] at h3
      exact ⟨fun _ => ⟨by omega, Or.inr (Or.inl h3)⟩, fun _ => rfl⟩
    · exact ⟨fun _ => ⟨by omega, Or.inr (Or.inr (Or.inl h4))⟩, fun _ => rfl⟩
    · exact ⟨fun _ => ⟨by omega, Or.inr (Or.inr (Or.inr h5))⟩, fun _ => rfl⟩
    · simp only [Bool.false_eq_true, false_iff]
      rintro ⟨hlen, hc | hc | hc | hc⟩
      · exact h2 hc
      · rw [List.any_eq_true] at h3
        exact h3 hc
      · exact h4 hc
      · exact h5 hc
  · intro h
    unfold shouldCreateMemory
    rw [if_pos h]

/-- Witness for C7: the specification's own two examples. -/
theorem shouldCreateMemory_iff_witness :
    ((shouldCreateMemory (str "hi") { primary := .neutral, intensity := 1/2 } = true ↔
      10 ≤ (str "hi").length ∧
        (0.7 < ({ primary := .neutral, intensity := 1/2 } : Emotion).intensity ∨
         (∃ k ∈ importantKeywords12, includesSub (lowerStr (str "hi")) k = true) ∨
         includesSub (str "hi") (str "?") = true ∨
         50 < (str "hi").length)) ∧
      ((str "hi").length < 10 →
        shouldCreateMemory (str "hi") { primary := .neutral, intensity := 1/2 } = false)) ∧
    shouldCreateMemory (str "I have a huge dream about travelling the world")
      { primary := .excitement, intensity := 9/10 } = true :=
  ⟨shouldCreateMemory_iff (str "hi") { primary := .neutral, intensity := 1/2 },
   by norm_num [shouldCreateMemory, str]⟩

/-! ## Fallback emotion classifier (`GeminiAI.fallbackEmotionAnalysis`,
`src/lib/gemini.ts` 29–53; the identical
`LangChainMemoryManager.fallbackEmotionAnalysis` is at
`src/lib/emotion-tracking.ts` 587–610) -/

/-- `GeminiAI.fallbackEmotionAnalysis` (`src/lib/gemini.ts` 29–53). -/
def fallbackEmotionAnalysis (message : Str) : Emotion :=
  let messageLower := lowerStr message
  if includesSub messageLower (str "love") || includesSub messageLower (str "❤️")
      || includesSub messageLower (str "💕") then
    { primary := .love, intensity := 0.8 }
  else if includesSub messageLower (str "happy") || includesSub messageLower (str "😊")
      || includesSub messageLower (str "joy") then
    { primary := .joy, intensity := 0.7 }
  else if includesSub messageLower (str "sad") || includesSub messageLower (str "😢")
      || includesSub messageLower (str "cry") then
    { primary := .sadness, intensity := 0.6 }
  else if includesSub messageLower (str "angry") || includesSub messageLower (str "😠")
      || includesSub messageLower (str "mad") then
    { primary := .anger, intensity := 0.7 }
  else if includesSub messageLower (str "worried") || includesSub messageLower (str "😰")
      || includesSub messageLower (str "anxious") then
    { primary := .anxiety, intensity := 0.6 }
  else if includesSub messageLower (str "excited") || includesSub messageLower (str "🤩")
      || includesSub messageLower (str "thrilled") then
    { primary := .excitement, intensity := 0.8 }
  else
    { primary := .neutral, intensity := 0.5 }

/-- `LangChainMemoryManager.fallbackEmotionAnalysis`
(`src/lib/emotion-tracking.ts` 587–610): character-for-character the same
keyword scan. -/
def fallbackEmotionAnalysisLC (message : Str) : Emotion :=
  let messageLower := lowerStr message
  if includesSub messageLower (str "love") || includesSub messageLower (str "❤️")
      || includesSub messageLower (str "💕") then
    { primary := .love, intensity := 0.8 }
  else if includesSub messageLower (str "happy") || includesSub messageLower (str "😊")
      || includesSub messageLower (str "joy") then
    { primary := .joy, intensity := 0.7 }
  else if includesSub messageLower (str "sad") || includesSub messageLower (str "😢")
      || includesSub messageLower (str "cry") then
    { primary := .sadness, intensity := 0.6 }
  else if includesSub messageLower (str "angry") || includesSub messageLower (str "😠")
      || includesSub messageLower (str "mad") then
    { primary := .anger, intensity := 0.7 }
  else if includesSub messageLower (str "worried") || includesSub messageLower (str "😰")
      || includesSub messageLower (str "anxious") then
    { primary := .anxiety, intensity := 0.6 }
  else if includesSub messageLower (str "excited") || includesSub messageLower (str "🤩")
      || includesSub messageLower (str "thrilled") then
    { primary := .excitement, intensity := 0.8 }
  else
    { primary := .neutral, intensity := 0.5 }

/-- The seven values the fallback scan can produce, in scan order
(love/0.8, joy/0.7, sadness/0.6, anger/0.7, anxiety/0.6, excitement/0.8,
neutral/0.5). -/
def fallbackOutputs : List Emotion :=
  [{ primary := .love, intensity := 0.8 },
   { primary := .joy, intensity := 0.7 },
   { primary := .sadness, intensity := 0.6 },
   { primary := .anger, intensity := 0.7 },
   { primary := .anxiety, intensity := 0.6 },
   { primary := .excitement, intensity := 0.8 },
   { primary := .neutral, intensity := 0.5 }]

lemma mem_emotionLabels (l : EmotionType) : l ∈ emotionLabels := by
  cases l <;> decide

/-- C8: the fallback classifier is total — on every input it yields one of
the seven fixed marker outputs, its intensity lies in `[0,1]`, its primary
label is one of the 16 defined labels, and the two source copies agree. -/
theorem fallbackEmotionAnalysis_total (message : Str) :
    0 ≤ (fallbackEmotionAnalysis message).intensity ∧
    (fallbackEmotionAnalysis message).intensity ≤ 1 ∧
    (fallbackEmotionAnalysis message).primary ∈ emotionLabels ∧
    fallbackEmotionAnalysis message ∈ fallbackOutputs ∧
    fallbackEmotionAnalysisLC message = fallbackEmotionAnalysis message := by
  refine ⟨?_, ?_, mem_emotionLabels _, ?_, rfl⟩ <;>
    · simp only [fallbackEmotionAnalysis]
      split_ifs <;> simp [fallbackOutputs] <;> norm_num

/-! ## Stable descending sort

`Array.prototype.sort` with comparator `(a, b) => b.score - a.score` is a
stable sort by score descending; elements with equal scores keep their
original relative order. We model it as an insertion sort that inserts each
later element after all earlier elements whose key is not smaller. -/

def insertDescBy {α β : Type} [LinearOrder β] (key : α → β) (x : α) :
    List α → List α
  | [] => [x]
  | y :: ys => if key y < key x then x :: y :: ys else y :: insertDescBy key x ys

def sortDescBy {α β : Type} [LinearOrder β] (key : α → β) (l : List α) :
    List α :=
  l.foldl (fun acc x => insertDescBy key x acc) []

/-- Descending order on keys, as a pairwise relation. -/
def KeyDesc {α β : Type} [LinearOrder β] (key : α → β) (a b : α) : Prop :=
  key b ≤ key a

lemma insertDescBy_perm {α β : Type} [LinearOrder β] (key : α → β) (x : α)
    (l : List α) : List.Perm (insertDescBy key x l) (x :: l) := by
  induction l with
  | nil => exact List.Perm.refl _
  | cons y ys ih =>
    by_cases h : key y < key x
    · simp only [insertDescBy, if_pos h]
      exact List.Perm.refl _
    · simp only [insertDescBy, if_neg h]
      exact (ih.cons y).trans (List.Perm.swap x y ys)

lemma insertDescBy_sorted {α β : Type} [LinearOrder β] (key : α → β) (x : α)
    (l : List α) (h : l.Pairwise (KeyDesc key)) :
    (insertDescBy key x l).Pairwise (KeyDesc key) := by
  induction l with
  | nil => simp [insertDescBy, KeyDesc]
  | cons y ys ih =>
    rcases List.pairwise_cons.mp h with ⟨hy, hys⟩
    by_cases hxy : key y < key x
    · simp only [insertDescBy, if_pos hxy]
      refine List.pairwise_cons.mpr ⟨?_, h⟩
      intro z hz
      rcases List.mem_cons.mp hz with rfl | hz
      · exact le_of_lt hxy
      · exact le_trans (hy z hz) (le_of_lt hxy)
    · simp only [insertDescBy, if_neg hxy]
      refine List.pairwise_cons.mpr ⟨?_, ih hys⟩
      intro z hz
      rcases List.mem_cons.mp ((insertDescBy_perm key x ys).mem_iff.mp hz) with rfl | hz
      · exact le_of_not_lt hxy
      · exact hy z hz

lemma sortDescBy_aux_perm {α β : Type} [LinearOrder β] (key : α → β) :
    ∀ (l acc : List α),
      List.Perm (l.foldl (fun acc x => insertDescBy key x acc) acc) (acc ++ l) := by
  intro l
  induction l with
  | nil => intro acc; simp
  | cons x xs ih =>
    intro acc
    exact (ih (insertDescBy key x acc)).trans
      (((insertDescBy_perm key x acc).append_right xs).trans List.perm_middle.symm)

lemma sortDescBy_perm {α β : Type} [LinearOrder β] (key : α → β)
    (l : List α) : List.Perm (sortDescBy key l) l := by
  simpa using sortDescBy_aux_perm key l []

lemma sortDescBy_aux_sorted {α β : Type} [LinearOrder β] (key : α → β) :
    ∀ (l acc : List α), acc.Pairwise (KeyDesc key) →
      (l.foldl (fun acc x => insertDescBy key x acc) acc).Pairwise (KeyDesc key) := by
  intro l
  induction l with
  | nil => intro acc h; exact h
  | cons x xs ih =>
    intro acc h
    exact ih (insertDescBy key x acc) (insertDescBy_sorted key x acc h)

lemma sortDescBy_sorted {α β : Type} [LinearOrder β] (key : α → β)
    (l : List α) : (sortDescBy key l).Pairwise (KeyDesc key) := by
  exact sortDescBy_aux_sorted key l [] (by simp)

/-! ## Stability of the descending sort on a key class

Used for C10: in the stable sort, the elements of one exact key value keep
their original relative order, so the zero-count labels of the
`dominantEmotions` computation appear in the fixed enumeration order. -/

lemma insertDescBy_filter_key {α β : Type} [LinearOrder β] [DecidableEq β] (key : α → β)
    (k : β) (x : α) :
    ∀ (l : List α), l.Pairwise (KeyDesc key) →
      (insertDescBy key x l).filter (fun a => key a = k)
        = if key x = k then (l.filter (fun a => key a = k)) ++ [x]
          else l.filter (fun a => key a = k) := by
  intro l
  induction l with
  | nil =>
    intro h0
    by_cases hk : key x = k <;> simp [insertDescBy, hk]
  | cons y ys ih =>
    intro h
    rcases List.pairwise_cons.mp h with ⟨hy, hys⟩
    by_cases hxy : key y < key x
    · rw [insertDescBy, if_pos hxy]
      by_cases hk : key x = k
      · have hnil : (y :: ys).filter (fun a => decide (key a = k)) = [] := by
          rw [List.filter_eq_nil_iff]
          intro a ha
          have h1 : key a ≤ key y := by
            rcases List.mem_cons.mp ha with rfl | ha2
            · exact le_refl _
            · exact hy a ha2
          have h2 : key a < k := lt_of_le_of_lt h1 (hk ▸ hxy)
          simp [ne_of_lt h2]
        rw [if_pos hk, hnil]
        simp [List.filter_cons, hk, hnil]
      · rw [if_neg hk]
        simp [List.filter_cons, hk]
    · rw [insertDescBy, if_neg hxy]
      have ihy := ih hys
      by_cases hyk : key y = k <;> by_cases hk : key x = k <;>
        simp [List.filter_cons, hyk, hk, ihy]

lemma sortDescBy_aux_filter_key {α β : Type} [LinearOrder β] [DecidableEq β] (key : α → β)
    (k : β) :
    ∀ (l acc : List α), acc.Pairwise (KeyDesc key) →
      (l.foldl (fun acc x => insertDescBy key x acc) acc).filter
          (fun a => key a = k)
        = acc.filter (fun a => key a = k) ++ l.filter (fun a => key a = k) := by
  intro l
  induction l with
  | nil => intro acc h; simp
  | cons x xs ih =>
    intro acc h
    rw [List.foldl_cons, ih (insertDescBy key x acc) (insertDescBy_sorted key x acc h),
      insertDescBy_filter_key key k x acc h]
    by_cases hk : key x = k <;> simp [List.filter_cons, hk]

lemma sortDescBy_filter_key {α β : Type} [LinearOrder β] [DecidableEq β] (key : α → β)
    (k : β) (l : List α) :
    (sortDescBy key l).filter (fun a => key a = k)
      = l.filter (fun a => key a = k) := by
  unfold sortDescBy
  have h := sortDescBy_aux_filter_key key k l [] List.Pairwise.nil
  rw [h, List.filter_nil, List.nil_append]

/-- In the stable descending sort of `(a, c a)` pairs, the elements of one
exact key value keep their original relative order: after taking the first
`n` and projecting, the elements of key class `q` form an initial segment
of the original key-class-`q` elements in their original order. -/
lemma take_sort_filter_class {A B : Type} [LinearOrder B] [DecidableEq B]
    (u : List A) (c : A → B) (q : B) (n : ℕ) :
    ∃ k, (((sortDescBy (fun p : A × B => p.2)
        (u.map (fun lab => (lab, c lab)))).take n).map (fun p => p.1)).filter
        (fun e => c e = q)
      = (u.filter (fun e => c e = q)).take k := by
  have hmem : ∀ p ∈ (sortDescBy (fun p : A × B => p.2)
      (u.map (fun lab => (lab, c lab)))).take n,
      ((fun e => decide (c e = q)) ∘ (fun p : A × B => p.1)) p
        = decide (p.2 = q) := by
    intro p hp
    have hp2 : p ∈ u.map (fun lab => (lab, c lab)) :=
      (sortDescBy_perm _ _).mem_iff.mp (List.mem_of_mem_take hp)
    obtain ⟨lab, -, rfl⟩ := List.mem_map.mp hp2
    rfl
  have hsplit : (sortDescBy (fun p : A × B => p.2)
        (u.map (fun lab => (lab, c lab)))).filter
        (fun p : A × B => p.2 = q)
      = ((sortDescBy (fun p : A × B => p.2)
          (u.map (fun lab => (lab, c lab)))).take n).filter
          (fun p : A × B => p.2 = q)
        ++ ((sortDescBy (fun p : A × B => p.2)
          (u.map (fun lab => (lab, c lab)))).drop n).filter
          (fun p : A × B => p.2 = q) := by
    rw [← List.filter_append, List.take_append_drop]
  have hpre : ((sortDescBy (fun p : A × B => p.2)
        (u.map (fun lab => (lab, c lab)))).take n).filter
        (fun p : A × B => p.2 = q)
      = ((sortDescBy (fun p : A × B => p.2)
          (u.map (fun lab => (lab, c lab)))).filter
          (fun p : A × B => p.2 = q)).take
          (((sortDescBy (fun p : A × B => p.2)
            (u.map (fun lab => (lab, c lab)))).take n).filter
            (fun p : A × B => p.2 = q)).length := by
    rw [hsplit, List.take_left]
  have hstable : (sortDescBy (fun p : A × B => p.2)
        (u.map (fun lab => (lab, c lab)))).filter
        (fun p : A × B => p.2 = q)
      = (u.map (fun lab => (lab, c lab))).filter
        (fun p : A × B => p.2 = q) :=
    sortDescBy_filter_key (fun p : A × B => p.2) q _
  have hbase : (u.map (fun lab => (lab, c lab))).filter
        (fun p : A × B => p.2 = q)
      = (u.filter (fun e => c e = q)).map (fun lab => (lab, c lab)) := by
    rw [List.filter_map]
    apply congrArg
    apply List.filter_congr
    intro e he
    rfl
  apply Exists.intro
  rw [List.filter_map, List.filter_congr hmem, hpre, hstable, hbase,
    List.map_take, List.map_map]
  have hid : ((fun p : A × B => p.1) ∘ (fun lab => (lab, c lab)))
      = fun e : A => e := rfl
  rw [hid, List.map_id']

/-! ## Search-mode retrieval (`MemoryManager.getRelevantMemories`,
`src/lib/memory.ts` 116–159) -/

/-- The per-memory relevance score of `MemoryManager.getRelevantMemories`
(`src/lib/memory.ts` 132–148).  JS `query.toLowerCase().split(' ')` keeps
empty tokens and is never the empty array, and `commonWords` counts query
tokens with multiplicity. -/
def searchScore (query : Str) (m : Memory) : ℚ :=
  let score := m.importance * 0.4
  let queryWords := jsSplitSpace (lowerStr query)
  let contentWords := jsSplitSpace (lowerStr m.content)
  let commonWords := queryWords.filter (fun word => contentWords.contains word)
  let score := score + ((commonWords.length : ℚ) / (queryWords.length : ℚ)) * 0.4
  let queryTags := jsSplitSpace (lowerStr query)
  let memoryTags := m.tags.map lowerStr
  let commonTags := queryTags.filter (fun tag => memoryTags.contains tag)
  let score := score + ((commonTags.length : ℚ) / (queryTags.length : ℚ)) * 0.2
  score

/-- `MemoryManager.getRelevantMemories` (`src/lib/memory.ts` 116–159); the
Redis read is modelled by the `memories` argument. -/
def getRelevantMemoriesSearch (memories : List Memory) (query : Str)
    (limit : ℕ) (types : Option (List MemoryType)) : List Memory :=
  let filteredMemories : List Memory :=
    match types with
    | some ts =>
      if 0 < ts.length then memories.filter (fun m => m.type ∈ ts) else memories
    | none => memories
  let scoredMemories := filteredMemories.map (fun m => (m, searchScore query m))
  ((sortDescBy (fun p => p.2) scoredMemories).take limit).map (fun p => p.1)

/-- Tokenization exactly as the specification words it: lower-case,
whitespace-split (so empty tokens are dropped, and an empty or all-whitespace
query has zero tokens). -/
def specTokens (s : Str) : List Str :=
  (splitBy Char.isWhitespace (lowerStr s)).filter (fun t => !t.isEmpty)

/-- The claimed search score: `0.4 * importance + 0.4 * |tokens(query) ∩
tokens(content)| / |tokens(query)| + 0.2 * |tokens(query) ∩ tags| /
|tokens(query)|`, with both overlap terms 0 when `|tokens(query)| = 0`. -/
def specSearchScore (query : Str) (m : Memory) : ℚ :=
  let qt := specTokens query
  if qt.length = 0 then 0.4 * m.importance
  else
    0.4 * m.importance
    + 0.4 * (((qt.dedup.filter (fun t => t ∈ specTokens m.content)).length : ℚ)
        / (qt.length : ℚ))
    + 0.2 * (((qt.dedup.filter (fun t => t ∈ m.tags)).length : ℚ)
        / (qt.length : ℚ))

/-- The search score in the form the amended claim states it: the same
weights, with tokens produced by lower-casing and splitting on the single
space character (empty tokens retained), overlaps counting query tokens with
multiplicity against the content tokens and the lower-cased tags. -/
def amendedSearchScore (query : Str) (m : Memory) : ℚ :=
  let qw := jsSplitSpace (lowerStr query)
  let cw := jsSplitSpace (lowerStr m.content)
  let tg := m.tags.map lowerStr
  0.4 * m.importance
  + 0.4 * ((qw.countP (fun w => cw.contains w) : ℚ) / (qw.length : ℚ))
  + 0.2 * ((qw.countP (fun w => tg.contains w) : ℚ) / (qw.length : ℚ))

lemma splitByAux_length_pos (p : Char → Bool) :
    ∀ (s acc : Str), 0 < (splitByAux p s acc).length := by
  intro s
  induction s with
  | nil => intro acc; simp [splitByAux]
  | cons c cs ih =>
    intro acc
    by_cases h : p c
    · simp [splitByAux, h]
    · simpa [splitByAux, h] using ih (c :: acc)

lemma jsSplitSpace_length_pos (s : Str) : 0 < (jsSplitSpace s).length :=
  splitByAux_length_pos _ s []

/-- The memory used by the C1 counterexample: importance 0, no tags, content
`"b  love"` (two spaces). -/
def cexSearchMemory : Memory :=
  { id := [], userId := [], content := str "b  love",
    type := .conversation, importance := 0,
    emotion := { primary := .neutral, intensity := 1/2 },
    tags := [], createdAt := 0, lastAccessedAt := 0 }

/-- C1 counterexample: on the query `"a  love"` (two spaces) the code's score
is `(2/3) * 0.4 = 4/15` — the empty token between the two spaces matches the
empty token of the content — while the claimed whitespace-token formula gives
`0.4 * (1/2) = 1/5`. -/
theorem searchScore_spec_counterexample :
    searchScore (str "a  love") cexSearchMemory = 4 / 15 ∧
    specSearchScore (str "a  love") cexSearchMemory = 1 / 5 ∧
    searchScore (str "a  love") cexSearchMemory ≠
      specSearchScore (str "a  love") cexSearchMemory := by
  have hq : (jsSplitSpace (lowerStr (str "a  love"))).length = 3 := by decide
  have hc : ((jsSplitSpace (lowerStr (str "a  love"))).filter
      (fun w => w ∈ jsSplitSpace (lowerStr (str "b  love")))).length = 2 := by
    decide
  have h1 : searchScore (str "a  love") cexSearchMemory = 4 / 15 := by
    norm_num [searchScore, cexSearchMemory, hq, hc]
  have hql : (specTokens (str "a  love")).length = 2 := by decide
  have hd : ((specTokens (str "a  love")).dedup.filter
      (fun t => t ∈ specTokens (str "b  love"))).length = 1 := by decide
  have h2 : specSearchScore (str "a  love") cexSearchMemory = 1 / 5 := by
    norm_num [specSearchScore, cexSearchMemory, hql, hd]
  refine ⟨h1, h2, ?_⟩
  rw [h1, h2]
  norm_num

/-- C1 (amended): the score `getRelevantMemories` assigns to a memory is
`0.4 * importance + 0.4 * (c / q) + 0.2 * (t / q)` where the tokens come from
lower-casing and splitting on the single space character, `c` and `t` count
query tokens with multiplicity that occur among the content tokens and the
lower-cased tags, and `q = |tokens(query)| ≥ 1` always, so no division by
zero (and no NaN) ever arises. -/
theorem searchScore_amended (query : Str) (m : Memory) :
    searchScore query m = amendedSearchScore query m ∧
    0 < (jsSplitSpace (lowerStr query)).length := by
  constructor
  · simp only [searchScore, amendedSearchScore, List.countP_eq_length_filter]
    ring
  · exact jsSplitSpace_length_pos _

lemma snd_eq_of_mem_scored {A : Type} (f : A → ℚ) (l : List A)
    (p : A × ℚ) (hp : p ∈ l.map (fun a => (a, f a))) : p.2 = f p.1 := by
  obtain ⟨a, -, rfl⟩ := List.mem_map.mp hp
  rfl

lemma snd_eq_of_mem_sorted_scored {A : Type} (f : A → ℚ) (l : List A)
    (p : A × ℚ)
    (hp : p ∈ sortDescBy (fun p => p.2) (l.map (fun a => (a, f a)))) :
    p.2 = f p.1 :=
  snd_eq_of_mem_scored f l p
    ((sortDescBy_perm (fun p => p.2) (l.map (fun a => (a, f a)))).mem_iff.mp hp)

lemma take_sorted_scored_pairwise {A : Type} (f : A → ℚ) (l : List A) (n : ℕ) :
    (((sortDescBy (fun p => p.2) (l.map (fun a => (a, f a)))).take n).map
        (fun p => p.1)).Pairwise (fun a b => f b ≤ f a) := by
  rw [List.pairwise_map]
  have hs : ((sortDescBy (fun p => p.2) (l.map (fun a => (a, f a)))).take n).Pairwise
      (KeyDesc (fun p : A × ℚ => p.2)) :=
    List.Pairwise.sublist (List.take_sublist n _) (sortDescBy_sorted _ _)
  refine hs.imp_of_mem ?_
  intro a b ha hb hab
  have ha2 := snd_eq_of_mem_sorted_scored f l a (List.mem_of_mem_take ha)
  have hb2 := snd_eq_of_mem_sorted_scored f l b (List.mem_of_mem_take hb)
  have hba : b.2 ≤ a.2 := hab
  rw [ha2, hb2] at hba
  exact hba

/-- The type pre-filtering step of `getRelevantMemories`
(`src/lib/memory.ts` 126–129), named so theorem statements can refer to the
candidate list. -/
def filteredByTypes (memories : List Memory)
    (types : Option (List MemoryType)) : List Memory :=
  match types with
  | some ts =>
    if 0 < ts.length then memories.filter (fun m => m.type ∈ ts) else memories
  | none => memories

/-- C2 (amended): `getRelevantMemories` returns at most `limit` memories,
pre-filtered to the given types when a non-empty type list is provided, and
ordered descending by score.  Ties keep the original (storage) order — the
source comparator `(a, b) => b.score - a.score` never consults `importance`
or `createdAt`, and the sort is stable: for every score value `q`, the
returned memories of score `q` are an initial segment of the filtered
candidates of score `q` in their original order, so the output is a
deterministic function of the stored order. -/
theorem getRelevantMemoriesSearch_spec (memories : List Memory) (query : Str)
    (limit : ℕ) (types : Option (List MemoryType)) :
    (getRelevantMemoriesSearch memories query limit types).length ≤ limit ∧
    (∀ ts, types = some ts → 0 < ts.length →
      ∀ m ∈ getRelevantMemoriesSearch memories query limit types, m.type ∈ ts) ∧
    ((getRelevantMemoriesSearch memories query limit types).map
        (fun m => searchScore query m)).Pairwise (fun a b => b ≤ a) ∧
    (∀ q : ℚ, ∃ k : ℕ,
      (getRelevantMemoriesSearch memories query limit types).filter
        (fun m => searchScore query m = q)
      = ((filteredByTypes memories types).filter
          (fun m => searchScore query m = q)).take k) := by
  refine ⟨?_, ?_, ?_, ?_⟩
  · simp only [getRelevantMemoriesSearch, List.length_map, List.length_take]
    exact min_le_left _ _
  · rintro ts rfl hpos m hm
    simp only [getRelevantMemoriesSearch, if_pos hpos] at hm
    obtain ⟨p, hp, rfl⟩ := List.mem_map.mp hm
    have hp2 : p ∈ sortDescBy (fun p => p.2)
        ((memories.filter (fun m => m.type ∈ ts)).map
          (fun m => (m, searchScore query m))) :=
      List.mem_of_mem_take hp
    have hp3 := (sortDescBy_perm _ _).mem_iff.mp hp2
    obtain ⟨m', hm', rfl⟩ := List.mem_map.mp hp3
    have := (List.mem_filter.mp hm').2
    simpa using this
  · simp only [getRelevantMemoriesSearch]
    rw [List.pairwise_map]
    exact take_sorted_scored_pairwise (fun m => searchScore query m) _ limit
  · intro q
    simp only [getRelevantMemoriesSearch]
    exact take_sort_filter_class (filteredByTypes memories types)
      (searchScore query) q limit

/-- Witness for C2 at a concrete input. -/
theorem getRelevantMemoriesSearch_spec_witness :
    (getRelevantMemoriesSearch [cexSearchMemory] (str "love") 1
        (some [MemoryType.conversation])).length ≤ 1 ∧
    (∀ m ∈ getRelevantMemoriesSearch [cexSearchMemory] (str "love") 1
        (some [MemoryType.conversation]), m.type ∈ [MemoryType.conversation]) ∧
    ((getRelevantMemoriesSearch [cexSearchMemory] (str "love") 1
        (some [MemoryType.conversation])).map
        (fun m => searchScore (str "love") m)).Pairwise (fun a b => b ≤ a) ∧
    (∀ q : ℚ, ∃ k : ℕ,
      (getRelevantMemoriesSearch [cexSearchMemory] (str "love") 1
          (some [MemoryType.conversation])).filter
        (fun m => searchScore (str "love") m = q)
      = ((filteredByTypes [cexSearchMemory]
            (some [MemoryType.conversation])).filter
          (fun m => searchScore (str "love") m = q)).take k) := by
  have h := getRelevantMemoriesSearch_spec [cexSearchMemory] (str "love") 1
    (some [MemoryType.conversation])
  exact ⟨h.1, h.2.1 [MemoryType.conversation] rfl (by norm_num), h.2.2.1,
    h.2.2.2⟩

/-- First memory of the C2 counterexample: importance 1/2, content `"love"`,
created at time 0; its score on the query `"love"` is
`0.5 * 0.4 + 1 * 0.4 = 3/5`. -/
def cexTieMem1 : Memory :=
  { id := [], userId := [], content := str "love",
    type := .conversation, importance := 1/2,
    emotion := { primary := .neutral, intensity := 1/2 },
    tags := [], createdAt := 0, lastAccessedAt := 0 }

/-- Second memory of the C2 counterexample: importance 1, no content match but
a matching tag, created at time 1; its score on the query `"love"` is
`1 * 0.4 + 1 * 0.2 = 3/5`. -/
def cexTieMem2 : Memory :=
  { id := [], userId := [], content := str "x",
    type := .conversation, importance := 1,
    emotion := { primary := .neutral, intensity := 1/2 },
    tags := [str "love"], createdAt := 1, lastAccessedAt := 1 }

/-- C2 counterexample: both memories score 3/5 on the query `"love"`, the
second has strictly larger importance and strictly larger `createdAt`, yet
the code returns them in storage order — the claimed importance/createdAt
tie-breaking does not happen. -/
theorem getRelevantMemoriesSearch_tie_counterexample :
    searchScore (str "love") cexTieMem1 = searchScore (str "love") cexTieMem2 ∧
    cexTieMem1.importance < cexTieMem2.importance ∧
    cexTieMem1.createdAt < cexTieMem2.createdAt ∧
    getRelevantMemoriesSearch [cexTieMem1, cexTieMem2] (str "love") 5 none
      = [cexTieMem1, cexTieMem2] := by
  have hq : (jsSplitSpace (lowerStr (str "love"))).length = 1 := by decide
  have hc1 : ((jsSplitSpace (lowerStr (str "love"))).filter
      (fun w => w ∈ jsSplitSpace (lowerStr (str "love")))).length = 1 := by decide
  have hc2 : ((jsSplitSpace (lowerStr (str "love"))).filter
      (fun w => w ∈ jsSplitSpace (lowerStr (str "x")))).length = 0 := by decide
  have ht2 : ((jsSplitSpace (lowerStr (str "love"))).filter
      (fun w => w = lowerStr (str "love"))).length = 1 := by decide
  have h1 : searchScore (str "love") cexTieMem1 = 3/5 := by
    norm_num [searchScore, cexTieMem1, hq, hc1]
  have h2 : searchScore (str "love") cexTieMem2 = 3/5 := by
    norm_num [searchScore, cexTieMem2, hq, hc2, ht2]
  refine ⟨h1.trans h2.symm, by norm_num [cexTieMem1, cexTieMem2],
    by norm_num [cexTieMem1, cexTieMem2], ?_⟩
  norm_num [getRelevantMemoriesSearch, sortDescBy, insertDescBy, h1, h2]

/-! ## Ambient context retrieval (`LangChainMemoryManager.getRelevantMemories`,
`src/lib/emotion-tracking.ts` 461–506) -/

/-- The per-memory score of the ambient (non-query) retrieval mode
(`src/lib/emotion-tracking.ts` 469–494): +1 per query token of length > 2
occurring as a substring of the content, +0.5 for a non-neutral emotion, the
raw importance, and the linear 30-day recency term. -/
def ambientScore (now : ℚ) (query : Str) (m : Memory) : ℚ :=
  let contentLower := lowerStr m.content
  let score : ℚ := 0
  let words := jsSplitSpace (lowerStr query)
  let score := words.foldl
    (fun acc word =>
      if includesSub contentLower word = true ∧ 2 < word.length then acc + 1
      else acc) score
  let score := if m.emotion.primary ≠ .neutral then score + 0.5 else score
  let score := score + m.importance
  let daysSinceCreation := (now - m.createdAt) / (1000 * 60 * 60 * 24)
  let score := score + max 0 (1 - daysSinceCreation / 30)
  score

/-- `LangChainMemoryManager.getRelevantMemories`
(`src/lib/emotion-tracking.ts` 461–506): scores all memories and returns the
top 5; the method has no limit parameter at all. -/
def getRelevantMemoriesAmbient (now : ℚ) (memories : List Memory)
    (query : Str) : List Memory :=
  if memories.length = 0 then []
  else
    let scoredMemories := memories.map (fun m => (m, ambientScore now query m))
    ((sortDescBy (fun p => p.2) scoredMemories).take 5).map (fun p => p.1)

/-- The ambient score as the specification states it: the keyword-match count
(uncapped), a flat 0.5 bonus for a non-neutral emotion, the raw importance,
and `max 0 (1 - daysSinceCreation / 30)`. -/
def specAmbientScore (now : ℚ) (query : Str) (m : Memory) : ℚ :=
  ((jsSplitSpace (lowerStr query)).countP
      (fun word => decide (includesSub (lowerStr m.content) word = true ∧
        2 < word.length)) : ℚ)
  + (if m.emotion.primary ≠ .neutral then 0.5 else 0)
  + m.importance
  + max 0 (1 - (now - m.createdAt) / (1000 * 60 * 60 * 24) / 30)

lemma foldl_count {A : Type} (P : A → Prop) [DecidablePred P] :
    ∀ (l : List A) (a : ℚ),
      l.foldl (fun acc x => if P x then acc + 1 else acc) a
        = a + (l.countP (fun x => decide (P x)) : ℚ) := by
  intro l
  induction l with
  | nil => intro a; simp
  | cons x xs ih =>
    intro a
    by_cases h : P x <;> simp [List.countP_cons, h, ih] <;> ring

/-- C5: every candidate's ambient score is exactly the specified sum, and the
retrieval returns (at most) the top 5 memories by that score — there is no
limit parameter to override the 5. -/
theorem ambientScore_and_top5 (now : ℚ) (memories : List Memory)
    (query : Str) :
    (∀ m : Memory, ambientScore now query m = specAmbientScore now query m) ∧
    (getRelevantMemoriesAmbient now memories query).length ≤ 5 ∧
    (∃ rest : List Memory,
      List.Perm (getRelevantMemoriesAmbient now memories query ++ rest)
        memories ∧
      ∀ x ∈ getRelevantMemoriesAmbient now memories query, ∀ y ∈ rest,
        ambientScore now query y ≤ ambientScore now query x) := by
  have hscore : ∀ m : Memory,
      ambientScore now query m = specAmbientScore now query m := by
    intro m
    simp only [ambientScore, specAmbientScore]
    rw [foldl_count]
    by_cases h : m.emotion.primary ≠ .neutral <;> simp [h] <;> ring
  refine ⟨hscore, ?_, ?_⟩
  · by_cases hempty : memories.length = 0
    · simp [getRelevantMemoriesAmbient, hempty]
    · simp only [getRelevantMemoriesAmbient, if_neg hempty, List.length_map,
        List.length_take]
      exact min_le_left _ _
  · by_cases hempty : memories.length = 0
    · refine ⟨[], ?_, ?_⟩
      · simp [getRelevantMemoriesAmbient, hempty, List.length_eq_zero.mp hempty]
      · intro x hx y hy
        exact absurd hy (List.not_mem_nil y)
    · set scored := memories.map (fun m => (m, ambientScore now query m)) with hscored
      set sorted := sortDescBy (fun p : Memory × ℚ => p.2) scored with hsorted
      refine ⟨(sorted.drop 5).map (fun p => p.1), ?_, ?_⟩
      · have h1 : getRelevantMemoriesAmbient now memories query
            = (sorted.take 5).map (fun p => p.1) := by
          simp only [getRelevantMemoriesAmbient, if_neg hempty, hscored, hsorted]
        rw [h1, ← List.map_append, List.take_append_drop]
        have h2 : List.Perm sorted scored := sortDescBy_perm _ _
        have h3 := h2.map (fun p : Memory × ℚ => p.1)
        refine h3.trans ?_
        rw [hscored, List.map_map]
        have hcomp : ((fun p : Memory × ℚ => p.1) ∘
            fun m => (m, ambientScore now query m)) = id := rfl
        rw [hcomp, List.map_id]
      · intro x hx y hy
        have h1 : getRelevantMemoriesAmbient now memories query
            = (sorted.take 5).map (fun p => p.1) := by
          simp only [getRelevantMemoriesAmbient, if_neg hempty, hscored, hsorted]
        rw [h1] at hx
        obtain ⟨p, hp, rfl⟩ := List.mem_map.mp hx
        obtain ⟨q, hq, rfl⟩ := List.mem_map.mp hy
        have hsort := sortDescBy_sorted (fun p : Memory × ℚ => p.2) scored
        rw [← hsorted, ← List.take_append_drop 5 sorted] at hsort
        have hdom := (List.pairwise_append.mp hsort).2.2 p hp q hq
        have hpq : q.2 ≤ p.2 := hdom
        have hp2 : p.2 = ambientScore now query p.1 :=
          snd_eq_of_mem_sorted_scored _ memories p
            (by rw [← hsorted]; exact List.mem_of_mem_take hp)
        have hq2 : q.2 = ambientScore now query q.1 :=
          snd_eq_of_mem_sorted_scored _ memories q
            (by rw [← hsorted]; exact List.mem_of_mem_drop hq)
        rw [hp2, hq2] at hpq
        exact hpq

/-- Witness for C5 at a concrete input. -/
theorem ambientScore_and_top5_witness :
    (∀ m : Memory, ambientScore 0 (str "hello") m = specAmbientScore 0 (str "hello") m) ∧
    (getRelevantMemoriesAmbient 0 [cexTieMem1] (str "hello")).length ≤ 5 ∧
    (∃ rest : List Memory,
      List.Perm (getRelevantMemoriesAmbient 0 [cexTieMem1] (str "hello") ++ rest)
        [cexTieMem1] ∧
      ∀ x ∈ getRelevantMemoriesAmbient 0 [cexTieMem1] (str "hello"), ∀ y ∈ rest,
        ambientScore 0 (str "hello") y ≤ ambientScore 0 (str "hello") x) :=
  ambientScore_and_top5 0 [cexTieMem1] (str "hello")

/-! ## Weighted mood recomputation (`EmotionTracker.calculateOverallMood`,
`src/lib/emotion-tracking.ts` 76–119)

Timestamps are rational milliseconds; `Math.exp` forces the weights into `ℝ`,
so these definitions are noncomputable. -/

/-- `EmotionEntry` of `src/types/index.ts`. -/
structure EmotionEntry where
  emotion : EmotionType
  intensity : ℚ
  timestamp : ℚ
  context : Option Str := none

/-- An emotion whose intensity lives in `ℝ` (the output of the weighted mood
computation). -/
structure EmotionR where
  primary : EmotionType
  intensity : ℝ

/-- The decay weight of one entry: `Math.exp(-hoursAgo / 24)` with
`hoursAgo = (now - timestamp) / (1000 * 60 * 60)`. -/
noncomputable def entryWeight (now : ℚ) (e : EmotionEntry) : ℝ :=
  Real.exp (-(((now : ℝ) - (e.timestamp : ℝ)) / (1000 * 60 * 60)) / 24)

/-- One step of the accumulation loop of `calculateOverallMood`
(`src/lib/emotion-tracking.ts` 92–100): bump the bucket of the entry's
emotion by `intensity * weight` and the total weight by `weight`. -/
noncomputable def moodStep (now : ℚ) (acc : (EmotionType → ℝ) × ℝ)
    (e : EmotionEntry) : (EmotionType → ℝ) × ℝ :=
  (fun l => if l = e.emotion then acc.1 l + (e.intensity : ℝ) * entryWeight now e
    else acc.1 l,
   acc.2 + entryWeight now e)

open Classical in
/-- `EmotionTracker.calculateOverallMood` (`src/lib/emotion-tracking.ts`
76–119): accumulate weighted buckets, scan the 16 labels in object order for
the strict maximum (starting from `neutral` / 0), and clamp
`maxWeight / totalWeight` (or 0.5 when the total weight is not positive). -/
noncomputable def calculateOverallMood (now : ℚ)
    (emotionHistory : List EmotionEntry) : EmotionR :=
  if emotionHistory.length = 0 then { primary := .neutral, intensity := 0.5 }
  else
    let wtot := emotionHistory.foldl (moodStep now) (fun _ => 0, 0)
    let weightedEmotions := wtot.1
    let totalWeight := wtot.2
    let scan := emotionLabels.foldl
      (fun (dm : EmotionType × ℝ) l =>
        if dm.2 < weightedEmotions l then (l, weightedEmotions l) else dm)
      (.neutral, 0)
    let averageIntensity := if 0 < totalWeight then scan.2 / totalWeight else 0.5
    { primary := scan.1, intensity := min 1 (max 0 averageIntensity) }

/-- The accumulated weighted value of one emotion bucket, written as the
specification states it: the sum over the entries carrying that label of
`intensity * exp(-hoursSince/24)`. -/
noncomputable def weightedSum (now : ℚ) (h : List EmotionEntry)
    (l : EmotionType) : ℝ :=
  ((h.filter (fun e => e.emotion = l)).map
    (fun e => (e.intensity : ℝ) * entryWeight now e)).sum

/-- The total decay weight of a history. -/
noncomputable def totalWeightOf (now : ℚ) (h : List EmotionEntry) : ℝ :=
  (h.map (fun e => entryWeight now e)).sum

lemma moodFold_snd (now : ℚ) :
    ∀ (h : List EmotionEntry) (acc : (EmotionType → ℝ) × ℝ),
      (h.foldl (moodStep now) acc).2 = acc.2 + totalWeightOf now h := by
  intro h
  induction h with
  | nil => intro acc; simp [totalWeightOf]
  | cons e t ih =>
    intro acc
    rw [List.foldl_cons, ih]
    simp [moodStep, totalWeightOf]
    ring

lemma moodFold_fst (now : ℚ) (l : EmotionType) :
    ∀ (h : List EmotionEntry) (acc : (EmotionType → ℝ) × ℝ),
      (h.foldl (moodStep now) acc).1 l = acc.1 l + weightedSum now h l := by
  intro h
  induction h with
  | nil => intro acc; simp [weightedSum]
  | cons e t ih =>
    intro acc
    rw [List.foldl_cons, ih]
    by_cases he : e.emotion = l
    · simp [moodStep, weightedSum, he]
      ring
    · have he' : ¬l = e.emotion := fun hh => he hh.symm
      simp [moodStep, weightedSum, he, he']

lemma scan_argmax (W : EmotionType → ℝ) :
    ∀ (L : List EmotionType) (d : EmotionType) (m : ℝ),
      m ≤ (L.foldl (fun dm l => if dm.2 < W l then (l, W l) else dm) (d, m)).2 ∧
      (∀ l ∈ L, W l ≤
        (L.foldl (fun dm l => if dm.2 < W l then (l, W l) else dm) (d, m)).2) ∧
      ((L.foldl (fun dm l => if dm.2 < W l then (l, W l) else dm) (d, m)) = (d, m) ∨
        W (L.foldl (fun dm l => if dm.2 < W l then (l, W l) else dm) (d, m)).1
          = (L.foldl (fun dm l => if dm.2 < W l then (l, W l) else dm) (d, m)).2) := by
  intro L
  induction L with
  | nil => intro d m; exact ⟨le_refl m, by simp, Or.inl rfl⟩
  | cons l0 ls ih =>
    intro d m
    by_cases h : m < W l0
    · have hstep : (l0 :: ls).foldl (fun dm l => if dm.2 < W l then (l, W l) else dm) (d, m)
          = ls.foldl (fun dm l => if dm.2 < W l then (l, W l) else dm) (l0, W l0) := by
        simp [h]
      obtain ⟨h1, h2, h3⟩ := ih l0 (W l0)
      rw [hstep]
      refine ⟨le_trans (le_of_lt h) h1, ?_, ?_⟩
      · intro l hl
        rcases List.mem_cons.mp hl with rfl | hl
        · exact h1
        · exact h2 l hl
      · rcases h3 with heq | hW
        · right
          rw [heq]
        · exact Or.inr hW
    · have hstep : (l0 :: ls).foldl (fun dm l => if dm.2 < W l then (l, W l) else dm) (d, m)
          = ls.foldl (fun dm l => if dm.2 < W l then (l, W l) else dm) (d, m) := by
        simp [h]
      obtain ⟨h1, h2, h3⟩ := ih d m
      rw [hstep]
      refine ⟨h1, ?_, h3⟩
      intro l hl
      rcases List.mem_cons.mp hl with rfl | hl
      · exact le_trans (le_of_not_lt h) h1
      · exact h2 l hl

lemma weightedSum_nonneg (now : ℚ) (h : List EmotionEntry)
    (hnn : ∀ e ∈ h, 0 ≤ e.intensity) (l : EmotionType) :
    0 ≤ weightedSum now h l := by
  unfold weightedSum
  apply List.sum_nonneg
  intro x hx
  obtain ⟨e, he, rfl⟩ := List.mem_map.mp hx
  have he2 : e ∈ h := (List.mem_filter.mp he).1
  have : (0 : ℝ) ≤ (e.intensity : ℝ) := by
    exact_mod_cast hnn e he2
  exact mul_nonneg this (le_of_lt (Real.exp_pos _))

lemma totalWeightOf_pos (now : ℚ) (h : List EmotionEntry) (hne : h ≠ []) :
    0 < totalWeightOf now h := by
  unfold totalWeightOf
  apply List.sum_pos
  · intro x hx
    obtain ⟨e, -, rfl⟩ := List.mem_map.mp hx
    exact Real.exp_pos _
  · simpa using hne

/-- C3: for a non-empty history with non-negative intensities (the data-model
invariant), the recomputed mood's primary label carries the maximum
accumulated weighted value, its intensity is
`clamp01(maxWeightedValue / totalWeight)`, and an empty history yields
`{neutral, 0.5}`. -/
theorem calculateOverallMood_spec (now : ℚ) (h : List EmotionEntry)
    (hne : h ≠ []) (hnn : ∀ e ∈ h, 0 ≤ e.intensity) :
    (∀ l : EmotionType, weightedSum now h l ≤
      weightedSum now h (calculateOverallMood now h).primary) ∧
    (calculateOverallMood now h).intensity = min 1 (max 0
      (weightedSum now h (calculateOverallMood now h).primary /
        totalWeightOf now h)) ∧
    calculateOverallMood now [] = { primary := .neutral, intensity := 0.5 } := by
  have hlen : ¬(h.length = 0) := by simpa using hne
  have hbucket : (h.foldl (moodStep now) (fun _ => 0, 0)).1
      = weightedSum now h := by
    funext l
    rw [moodFold_fst]
    simp
  have htot : (h.foldl (moodStep now) (fun _ => 0, 0)).2
      = totalWeightOf now h := by
    rw [moodFold_snd]
    simp
  obtain ⟨hm0, hall, hlast⟩ :=
    scan_argmax (weightedSum now h) emotionLabels .neutral 0
  have hWd : weightedSum now h
      ((emotionLabels.foldl
        (fun dm l => if dm.2 < weightedSum now h l then (l, weightedSum now h l)
          else dm) (EmotionType.neutral, 0)).1)
      = (emotionLabels.foldl
        (fun dm l => if dm.2 < weightedSum now h l then (l, weightedSum now h l)
          else dm) (EmotionType.neutral, 0)).2 := by
    rcases hlast with heq | hval
    · rw [heq]
      have h1 : weightedSum now h .neutral ≤ 0 := by
        have := hall .neutral (mem_emotionLabels _)
        rw [heq] at this
        exact this
      have h2 : 0 ≤ weightedSum now h .neutral :=
        weightedSum_nonneg now h hnn _
      exact le_antisymm h1 h2
    · exact hval
  have hprim : (calculateOverallMood now h).primary
      = (emotionLabels.foldl
        (fun dm l => if dm.2 < weightedSum now h l then (l, weightedSum now h l)
          else dm) (EmotionType.neutral, 0)).1 := by
    simp only [calculateOverallMood, if_neg hlen, hbucket, htot]
  have hint : (calculateOverallMood now h).intensity
      = min 1 (max 0 (if 0 < totalWeightOf now h then
          (emotionLabels.foldl
            (fun dm l => if dm.2 < weightedSum now h l then (l, weightedSum now h l)
              else dm) (EmotionType.neutral, 0)).2 / totalWeightOf now h
        else 0.5)) := by
    simp only [calculateOverallMood, if_neg hlen, hbucket, htot]
  refine ⟨?_, ?_, ?_⟩
  · intro l
    rw [hprim, hWd]
    exact hall l (mem_emotionLabels l)
  · rw [hint, if_pos (totalWeightOf_pos now h hne), hprim, hWd]
  · simp [calculateOverallMood]

/-- Witness for C3: a single entry of intensity 1 and label joy at time 0. -/
theorem calculateOverallMood_spec_witness :
    (∀ l : EmotionType,
      weightedSum 0 [{ emotion := .joy, intensity := 1, timestamp := 0 }] l ≤
      weightedSum 0 [{ emotion := .joy, intensity := 1, timestamp := 0 }]
        (calculateOverallMood 0
          [{ emotion := .joy, intensity := 1, timestamp := 0 }]).primary) ∧
    (calculateOverallMood 0
        [{ emotion := .joy, intensity := 1, timestamp := 0 }]).intensity
      = min 1 (max 0
        (weightedSum 0 [{ emotion := .joy, intensity := 1, timestamp := 0 }]
          (calculateOverallMood 0
            [{ emotion := .joy, intensity := 1, timestamp := 0 }]).primary /
          totalWeightOf 0 [{ emotion := .joy, intensity := 1, timestamp := 0 }])) ∧
    calculateOverallMood 0 ([] : List EmotionEntry)
      = { primary := .neutral, intensity := 0.5 } :=
  calculateOverallMood_spec 0 [{ emotion := .joy, intensity := 1, timestamp := 0 }]
    (by simp)
    (by
      intro e he
      simp only [List.mem_singleton] at he
      rw [he]
      norm_num)

/-! ## Mood trends (`EmotionTracker.getMoodTrends`,
`src/lib/emotion-tracking.ts` 148–207) -/

/-- `MoodTracking` of `src/types/index.ts` (one record per calendar day). -/
structure MoodDay where
  userId : Str := []
  date : ℚ := 0
  overallMood : Emotion
  moodHistory : List EmotionEntry := []
  triggers : List Str := []
  notes : Option Str := none

inductive Trend where
  | improving | declining | stable
  deriving DecidableEq

/-- The return shape of `getMoodTrends`. -/
structure TrendResult where
  trend : Trend
  averageMood : ℚ
  moodVariability : ℝ
  dominantEmotions : List EmotionType

/-- How many days of a window carry a given `overallMood.primary` label. -/
def countLabel (moodHistory : List MoodDay) (l : EmotionType) : ℕ :=
  (moodHistory.filter (fun day => day.overallMood.primary = l)).length

/-- `EmotionTracker.getMoodTrends` (`src/lib/emotion-tracking.ts` 148–207).
`slice(-3)` / `slice(0, -3)` become `drop (n - 3)` / `take (n - 3)` (equal for
the reachable `n ≥ 2`), the `reduce`-based sums become `foldl`, and the
`Object.entries(...).sort(...).slice(0, 3)` pipeline becomes a stable
descending sort over the 16 labels in object order. -/
noncomputable def getMoodTrends (moodHistory : List MoodDay) : TrendResult :=
  if moodHistory.length < 2 then
    { trend := .stable, averageMood := 0.5, moodVariability := 0,
      dominantEmotions := [.neutral] }
  else
    let recentMoods := (moodHistory.drop (moodHistory.length - 3)).map
      (fun m => m.overallMood.intensity)
    let olderMoods := (moodHistory.take (moodHistory.length - 3)).map
      (fun m => m.overallMood.intensity)
    let recentAvg := recentMoods.foldl (· + ·) 0 / (recentMoods.length : ℚ)
    let olderAvg := if 0 < olderMoods.length then
        olderMoods.foldl (· + ·) 0 / (olderMoods.length : ℚ)
      else recentAvg
    let trend : Trend := if olderAvg + 0.1 < recentAvg then .improving
      else if recentAvg < olderAvg - 0.1 then .declining
      else .stable
    let allMoods := moodHistory.map (fun m => m.overallMood.intensity)
    let averageMood := allMoods.foldl (· + ·) 0 / (allMoods.length : ℚ)
    let variance := allMoods.foldl (fun acc mood => acc + (mood - averageMood)^2) 0
        / (allMoods.length : ℚ)
    let moodVariability : ℝ := Real.sqrt (variance : ℝ)
    let emotionCounts := moodHistory.foldl
      (fun (acc : EmotionType → ℕ) day =>
        fun l => if l = day.overallMood.primary then acc l + 1 else acc l)
      (fun _ => 0)
    let dominantEmotions := ((sortDescBy (fun p : EmotionType × ℕ => p.2)
        (emotionLabels.map (fun l => (l, emotionCounts l)))).take 3).map
      (fun p => p.1)
    { trend := trend, averageMood := averageMood,
      moodVariability := moodVariability, dominantEmotions := dominantEmotions }

/-- Arithmetic mean of a rational series. -/
def meanQ (l : List ℚ) : ℚ := l.sum / (l.length : ℚ)

/-- Population variance of a rational series. -/
def varianceQ (l : List ℚ) : ℚ :=
  ((l.map (fun x => (x - meanQ l) ^ 2)).sum) / (l.length : ℚ)

/-- The trend classification as the specification states it, over the
intensity series: recent = last 3 entries, older = remainder, with
`olderAvg = recentAvg` when the older part is empty. -/
def specTrend (s : List ℚ) : Trend :=
  let recentAvg := meanQ (s.drop (s.length - 3))
  let olderAvg := if s.take (s.length - 3) = [] then recentAvg
    else meanQ (s.take (s.length - 3))
  if olderAvg + 0.1 < recentAvg then .improving
  else if recentAvg < olderAvg - 0.1 then .declining
  else .stable

lemma foldl_add_eq_sum : ∀ (l : List ℚ) (a : ℚ), l.foldl (· + ·) a = a + l.sum := by
  intro l
  induction l with
  | nil => intro a; simp
  | cons x xs ih =>
    intro a
    rw [List.foldl_cons, ih, List.sum_cons]
    ring

lemma foldl_sq_eq_sum (c : ℚ) : ∀ (l : List ℚ) (a : ℚ),
    l.foldl (fun acc x => acc + (x - c) ^ 2) a
      = a + (l.map (fun x => (x - c) ^ 2)).sum := by
  intro l
  induction l with
  | nil => intro a; simp
  | cons x xs ih =>
    intro a
    rw [List.foldl_cons, ih, List.map_cons, List.sum_cons]
    ring

lemma mean_foldl (u : List ℚ) :
    u.foldl (· + ·) 0 / (u.length : ℚ) = meanQ u := by
  rw [foldl_add_eq_sum]
  simp [meanQ]

lemma if_length_flip (u : List ℚ) (X Y : ℚ) :
    (if 0 < u.length then X else Y) = if u = [] then Y else X := by
  by_cases h : u = []
  · simp [h]
  · rw [if_pos (List.length_pos.mpr h), if_neg h]

/-- C4: with at least 2 days, the trend is classified from the means of the
last-3 / remainder split with the ±0.1 thresholds (older empty → stable),
`averageMood` is the arithmetic mean and `moodVariability` the population
standard deviation of the whole intensity series; with fewer than 2 days the
result short-circuits to `{stable, 0.5, 0, [neutral]}`. -/
theorem getMoodTrends_spec (l : List MoodDay) (hl : 2 ≤ l.length) :
    (getMoodTrends l).trend
      = specTrend (l.map (fun d => d.overallMood.intensity)) ∧
    (getMoodTrends l).averageMood
      = meanQ (l.map (fun d => d.overallMood.intensity)) ∧
    (getMoodTrends l).moodVariability
      = Real.sqrt ((varianceQ (l.map (fun d => d.overallMood.intensity)) : ℚ) : ℝ) ∧
    (∀ l2 : List MoodDay, l2.length < 2 →
      getMoodTrends l2 = { trend := .stable, averageMood := 0.5,
                           moodVariability := 0,
                           dominantEmotions := [.neutral] }) := by
  have hn : ¬l.length < 2 := not_lt.mpr hl
  refine ⟨?_, ?_, ?_, ?_⟩
  · simp only [getMoodTrends, if_neg hn, List.map_drop, List.map_take,
      mean_foldl, if_length_flip]
    simp only [specTrend, List.length_map]
  · simp only [getMoodTrends, if_neg hn]
    exact mean_foldl _
  · simp only [getMoodTrends, if_neg hn, mean_foldl]
    rw [foldl_sq_eq_sum]
    simp [varianceQ]
  · intro l2 h2
    simp [getMoodTrends, h2]

/-- The concrete two-day window used by the C4 and C10 witnesses. -/
def witnessDays : List MoodDay :=
  [{ overallMood := { primary := .joy, intensity := 1 } },
   { overallMood := { primary := .sadness, intensity := 0 } }]

/-- Witness for C4: a concrete two-day window. -/
theorem getMoodTrends_spec_witness :
    (getMoodTrends witnessDays).trend
      = specTrend (witnessDays.map (fun d => d.overallMood.intensity)) ∧
    (getMoodTrends witnessDays).averageMood
      = meanQ (witnessDays.map (fun d => d.overallMood.intensity)) ∧
    (getMoodTrends witnessDays).moodVariability
      = Real.sqrt ((varianceQ (witnessDays.map
          (fun d => d.overallMood.intensity)) : ℚ) : ℝ) ∧
    (∀ l2 : List MoodDay, l2.length < 2 →
      getMoodTrends l2 = { trend := .stable, averageMood := 0.5,
                           moodVariability := 0,
                           dominantEmotions := [.neutral] }) :=
  getMoodTrends_spec witnessDays (by norm_num [witnessDays])

lemma countFold_eq (lab : EmotionType) :
    ∀ (l : List MoodDay) (acc : EmotionType → ℕ),
      (l.foldl (fun (acc : EmotionType → ℕ) day =>
        fun e => if e = day.overallMood.primary then acc e + 1 else acc e)
        acc) lab = acc lab + countLabel l lab := by
  intro l
  induction l with
  | nil => intro acc; simp [countLabel]
  | cons day t ih =>
    intro acc
    rw [List.foldl_cons, ih]
    by_cases hd : lab = day.overallMood.primary
    · rw [if_pos hd]
      have hc : countLabel (day :: t) lab = countLabel t lab + 1 := by
        unfold countLabel
        rw [List.filter_cons, if_pos (decide_eq_true hd.symm), List.length_cons]
      rw [hc]
      ring
    · rw [if_neg hd]
      have hc : countLabel (day :: t) lab = countLabel t lab := by
        unfold countLabel
        rw [List.filter_cons, if_neg ?_]
        simp only [decide_eq_true_eq]
        exact fun hh => hd hh.symm
      rw [hc]

/-- C10: with at least 2 days in the window, `dominantEmotions` has exactly 3
entries, and its zero-count labels form an initial segment of the zero-count
labels taken in the fixed 16-label enumeration order (the stable sort keeps
the object-literal order among equal counts). -/
theorem dominantEmotions_exactly_three (l : List MoodDay) (hl : 2 ≤ l.length) :
    (getMoodTrends l).dominantEmotions.length = 3 ∧
    (∃ k : ℕ, (getMoodTrends l).dominantEmotions.filter
        (fun e => countLabel l e = 0)
      = (emotionLabels.filter (fun e => countLabel l e = 0)).take k) := by
  have hn : ¬l.length < 2 := not_lt.mpr hl
  have hcount : (l.foldl (fun (acc : EmotionType → ℕ) day =>
      fun e => if e = day.overallMood.primary then acc e + 1 else acc e)
      (fun _ => 0)) = countLabel l := by
    funext lab
    rw [countFold_eq]
    simp
  have hdom : (getMoodTrends l).dominantEmotions
      = ((sortDescBy (fun p : EmotionType × ℕ => p.2)
          (emotionLabels.map (fun lab => (lab, countLabel l lab)))).take 3).map
        (fun p => p.1) := by
    simp only [getMoodTrends, if_neg hn, hcount]
  constructor
  · rw [hdom, List.length_map, List.length_take]
    have hperm : (sortDescBy (fun p : EmotionType × ℕ => p.2)
        (emotionLabels.map (fun lab => (lab, countLabel l lab)))).length
        = 16 := by
      rw [(sortDescBy_perm _ _).length_eq, List.length_map]
      rfl
    rw [hperm]
    omega
  · rw [hdom]
    exact take_sort_filter_class emotionLabels (countLabel l) 0 3

/-- Witness for C10 at the concrete two-day window. -/
theorem dominantEmotions_exactly_three_witness :
    (getMoodTrends witnessDays).dominantEmotions.length = 3 ∧
    (∃ k : ℕ, (getMoodTrends witnessDays).dominantEmotions.filter
        (fun e => countLabel witnessDays e = 0)
      = (emotionLabels.filter (fun e => countLabel witnessDays e = 0)).take k) :=
  dominantEmotions_exactly_three witnessDays (by norm_num [witnessDays])
